import Mathlib

/-!
Verification development for the pgcenter statistics refresh engine
(src/pgcenter.c).  The C program is shallowly embedded: C arrays of
strings become lists of lists of `String`, machine integers become
`Nat`/`Int` with explicit wrap where the C width matters, and the
per-view constants that live in the (absent) header pgcenter.h are
carried as an explicit record of parameters.
-/

/-- A table cell, as in the C program a text value. -/
abbrev Cell := String

/-- One row of a result table: the C `char **` row of cells. -/
abbrev Row := List Cell

/-- Embedding of a libpq `PGresult` that holds tuples: the rows of text
cells plus the column count (`PQnfields`). -/
structure PGres where
  rows : List Row
  ncols : Nat
deriving DecidableEq

/-- Outcome of `PQexec` as seen by `do_query`: either a result whose
status is `PGRES_TUPLES_OK`, or any failing status. -/
inductive PQResult where
  | tuplesOk (t : PGres)
  | failed
deriving DecidableEq

/-- Embedding of `PQntuples`; libpq returns 0 on a NULL result. -/
def PQntuples (res : Option PGres) : Nat :=
  match res with
  | none => 0
  | some t => t.rows.length

/-- Embedding of `PQnfields`; libpq returns 0 on a NULL result. -/
def PQnfields (res : Option PGres) : Nat :=
  match res with
  | none => 0
  | some t => t.ncols

/-- Embedding of `PQgetvalue res i j` (out-of-range access never happens
on the executions the theorems below describe; the default is `""`). -/
def PQgetvalue (res : Option PGres) (i j : Nat) : Cell :=
  match res with
  | none => ""
  | some t => (t.rows.getD i []).getD j ""

/-- Embedding of `do_query` (src/pgcenter.c:449): on a non-tuples-ok
status it prints "We did not get any data." and returns NULL.  The
returned flag records whether that message was printed. -/
def do_query (q : PQResult) : Option PGres × Bool :=
  match q with
  | .tuplesOk t => (some t, false)
  | .failed => (none, true)

/-- Embedding of `pgrescpy` (src/pgcenter.c:980): copy an
`n_rows × n_cols` block of values out of a query result. -/
def pgrescpy (res : Option PGres) (n_rows n_cols : Nat) : List Row :=
  (List.range n_rows).map fun i => (List.range n_cols).map fun j => PQgetvalue res i j

/-- The eight query contexts of `enum context` (pgcenter.h, used
throughout src/pgcenter.c). -/
inductive context where
  | pg_stat_database
  | pg_stat_replication
  | pg_stat_user_tables
  | pg_stat_user_indexes
  | pg_statio_user_tables
  | pg_tables_size
  | pg_stat_activity_long
  | pg_stat_user_functions
deriving DecidableEq

/-- Modelled from the spec: `INVALID_ORDER_KEY` from the missing header
pgcenter.h; the spec fixes the un-sortable marker as `-1`. -/
def INVALID_ORDER_KEY : Int := -1

/-- Modelled from the spec: the per-view column-range constants defined
in the missing header pgcenter.h.  Only their names (used by
src/pgcenter.c) are known; the theorems below are parametric in their
values, with the facts they need stated as hypotheses. -/
structure HeaderConsts where
  PG_STAT_DATABASE_ORDER_MIN : Int
  PG_STAT_DATABASE_ORDER_MAX : Int
  PG_STAT_REPLICATION_ORDER_MIN : Int
  PG_STAT_REPLICATION_ORDER_MAX : Int
  PG_STAT_USER_TABLES_ORDER_MIN : Int
  PG_STAT_USER_TABLES_ORDER_MAX : Int
  PG_STAT_USER_INDEXES_ORDER_MIN : Int
  PG_STAT_USER_INDEXES_ORDER_MAX : Int
  PG_STATIO_USER_TABLES_ORDER_MIN : Int
  PG_STATIO_USER_TABLES_ORDER_MAX : Int
  PG_TABLES_SIZE_ORDER_MIN : Int
  PG_TABLES_SIZE_ORDER_MAX : Int
  PG_STAT_ACTIVITY_LONG_ORDER_MIN : Int
  PG_STAT_ACTIVITY_LONG_ORDER_MAX : Int
  PG_STAT_USER_FUNCTIONS_ORDER_MIN : Int
  PG_STAT_USER_FUNCTIONS_ORDER_MAX : Int
  PG_STAT_USER_FUNCTIONS_DIFF_COL : Int

/-- Per-(console,view) sort state: the `.order_key`/`.order_desc`
fields of `struct context_s` (pgcenter.h). -/
structure context_s where
  order_key : Int
  order_desc : Bool
deriving DecidableEq

/-- Embedding of `struct screen_s`: the fields of the console state the
refresh engine reads.  The C `context_list` array, whose entries are
keyed by their `.context` field (one entry per context after
`init_screens`), is modelled as a function from contexts. -/
structure screen_s where
  conn_used : Bool
  current_context : context
  context_list : context → context_s
  pg_stat_activity_min_age : String

/- ------------------------------------------------------------------ -/
/- atoll / printf "%lli" embedding                                     -/
/- ------------------------------------------------------------------ -/

/-- Characters accepted by `isspace` in the C locale, as skipped by
`strtoll` and scanf conversions. -/
def isSpaceChar (c : Char) : Bool :=
  c = ' ' || c = '\t' || c = '\n' || c = '\x0b' || c = '\x0c' || c = '\r'

/-- Drop the leading `isspace` characters. -/
def skipSpaces : List Char → List Char
  | [] => []
  | c :: cs => if isSpaceChar c then skipSpaces cs else c :: cs

/-- Split a leading run of decimal digits into their values, returning
the remainder. -/
def takeDigits : List Char → List Nat × List Char
  | [] => ([], [])
  | c :: cs =>
    if c.isDigit then
      let p := takeDigits cs
      ((c.toNat - '0'.toNat) :: p.1, p.2)
    else ([], c :: cs)

/-- Value of a digit-value list read most-significant first. -/
def digitsToNat (ds : List Nat) : Nat :=
  ds.foldl (fun a d => a * 10 + d) 0

/-- The number recognised at the front of a string by `strtoll`:
optional whitespace, optional sign, then at least one digit.  `none`
when no digits are found (the parse failure case). -/
def strtollNum (s : String) : Option Int :=
  let cs := skipSpaces s.toList
  match cs with
  | '-' :: t =>
    let p := takeDigits t
    if p.1 = [] then none else some (-(digitsToNat p.1 : Int))
  | '+' :: t =>
    let p := takeDigits t
    if p.1 = [] then none else some (digitsToNat p.1 : Int)
  | t =>
    let p := takeDigits t
    if p.1 = [] then none else some (digitsToNat p.1 : Int)

/-- Largest value of the C `long long` type. -/
def LLONG_MAX : Int := 2 ^ 63 - 1

/-- Smallest value of the C `long long` type. -/
def LLONG_MIN : Int := -(2 ^ 63)

/-- Embedding of `atoll`: the signed 64-bit parse of a cell.  A string
with no leading number yields 0; out-of-range values saturate at the
`long long` bounds as in glibc `strtoll`. -/
def atoll (s : String) : Int :=
  match strtollNum s with
  | none => 0
  | some v => max LLONG_MIN (min LLONG_MAX v)

/-- Decimal rendering of a signed value, as `snprintf "%lli"` produces
in `diff_arrays`. -/
def formatLLI (v : Int) : String := toString v

/- ------------------------------------------------------------------ -/
/- diff_arrays                                                         -/
/- ------------------------------------------------------------------ -/

/-- The `[min,max]` column range selected by the switch at the top of
`diff_arrays` (src/pgcenter.c:1008-1050). -/
def diff_range (K : HeaderConsts) : context → Int × Int
  | .pg_stat_database => (K.PG_STAT_DATABASE_ORDER_MIN, K.PG_STAT_DATABASE_ORDER_MAX)
  | .pg_stat_replication => (K.PG_STAT_REPLICATION_ORDER_MIN, K.PG_STAT_REPLICATION_ORDER_MAX)
  | .pg_stat_user_tables => (K.PG_STAT_USER_TABLES_ORDER_MIN, K.PG_STAT_USER_TABLES_ORDER_MAX)
  | .pg_stat_user_indexes => (K.PG_STAT_USER_INDEXES_ORDER_MIN, K.PG_STAT_USER_INDEXES_ORDER_MAX)
  | .pg_statio_user_tables => (K.PG_STATIO_USER_TABLES_ORDER_MIN, K.PG_STATIO_USER_TABLES_ORDER_MAX)
  | .pg_tables_size => (K.PG_TABLES_SIZE_ORDER_MIN, K.PG_TABLES_SIZE_ORDER_MAX)
  | .pg_stat_activity_long => (K.PG_STAT_ACTIVITY_LONG_ORDER_MIN, K.PG_STAT_ACTIVITY_LONG_ORDER_MAX)
  | .pg_stat_user_functions => (K.PG_STAT_USER_FUNCTIONS_DIFF_COL, K.PG_STAT_USER_FUNCTIONS_DIFF_COL)

/-- Cell access `arr[i][j]` on the list model of the C `char ***`
arrays. -/
def cellAt (arr : List Row) (i j : Nat) : Cell :=
  (arr.getD i []).getD j ""

/-- Embedding of `diff_arrays` (src/pgcenter.c:1004): cells whose column
lies in the diff range of the view become the formatted difference of
the `atoll` parses of current and previous; all other cells are copied
from the current array. -/
def diff_arrays (K : HeaderConsts) (p_arr c_arr : List Row) (ctx : context)
    (n_rows n_cols : Nat) : List Row :=
  let r := diff_range K ctx
  (List.range n_rows).map fun i =>
    (List.range n_cols).map fun (j : Nat) =>
      if (j : Int) < r.1 ∨ (j : Int) > r.2 then cellAt c_arr i j
      else formatLLI (atoll (cellAt c_arr i j) - atoll (cellAt p_arr i j))

/-- Shape predicate for the list model of a C `n_rows × n_cols` array. -/
def tableShape (t : List Row) (r c : Nat) : Prop :=
  t.length = r ∧ ∀ row ∈ t, row.length = c

/- ------------------------------------------------------------------ -/
/- sort_array                                                          -/
/- ------------------------------------------------------------------ -/

/-- The sort key of a row: the `atoll` parse of the cell in the
order-key column, `atoll(res_arr[i][order_key])` in `sort_array`. -/
def key_at (order_key : Int) (row : Row) : Int :=
  atoll (if 0 ≤ order_key then row.getD order_key.toNat "" else "")

/-- The swap test of the inner loop of `sort_array`
(src/pgcenter.c:1099-1114): descending swaps when the later row has the
strictly larger key, ascending when the earlier row has the strictly
larger key. -/
def swap_cond (desc : Bool) (k : Int) (cur x : Row) : Bool :=
  if desc then decide (key_at k x > key_at k cur)
  else decide (key_at k cur > key_at k x)

/-- Order in which `sort_array` leaves adjacent rows: key of the later
row bounded by the key of the earlier row for descending order, the
reverse for ascending. -/
def row_ord (desc : Bool) (k : Int) (a b : Row) : Prop :=
  if desc then key_at k b ≤ key_at k a else key_at k a ≤ key_at k b

instance (desc : Bool) (k : Int) (a b : Row) : Decidable (row_ord desc k a b) := by
  unfold row_ord
  exact instDecidableIte

/-- One pass of the inner `j` loop of `sort_array` for a fixed `i`:
`cur` is the row currently at position `i`, the list holds positions
`i+1 ..`.  On a swap the scanned position receives `cur` and the scan
continues with the swapped-in row.  Returns the row finally left at
position `i` and the rows left at the later positions. -/
def sort_scan (desc : Bool) (k : Int) (cur : Row) : List Row → Row × List Row
  | [] => (cur, [])
  | x :: rest =>
    if swap_cond desc k cur x then
      let p := sort_scan desc k x rest
      (p.1, cur :: p.2)
    else
      let p := sort_scan desc k cur rest
      (p.1, x :: p.2)

theorem sort_scan_snd_length (desc : Bool) (k : Int) (cur : Row) (l : List Row) :
    (sort_scan desc k cur l).2.length = l.length := by
  induction l generalizing cur with
  | nil => rfl
  | cons x rest ih =>
    by_cases h : swap_cond desc k cur x = true <;>
      simp [sort_scan, h, ih]

/-- The outer `i` loop of `sort_array`: selection of the extreme row of
the remainder into each successive position. -/
def sort_pass (desc : Bool) (k : Int) : List Row → List Row
  | [] => []
  | r :: rest =>
    (sort_scan desc k r rest).1 :: sort_pass desc k (sort_scan desc k r rest).2
termination_by l => l.length
decreasing_by
  simp [sort_scan_snd_length]

/-- Embedding of `sort_array` (src/pgcenter.c:1079): looks up the
active view sort settings, returns the array unchanged for the
user-functions view or for an invalid order key, and otherwise runs the
double swap loop. -/
def sort_array (screen : screen_s) (res_arr : List Row) : List Row :=
  let order_key := (screen.context_list screen.current_context).order_key
  let desc := (screen.context_list screen.current_context).order_desc
  if screen.current_context = .pg_stat_user_functions then res_arr
  else if order_key = INVALID_ORDER_KEY then res_arr
  else sort_pass desc order_key res_arr

/- ------------------------------------------------------------------ -/
/- change_sort_order                                                   -/
/- ------------------------------------------------------------------ -/

/-- Lower bound of the wrap interval computed by the switch in
`change_sort_order` (src/pgcenter.c:1179-1215); note the literal
`PG_TABLES_SIZE_ORDER_MIN - 3` for the table-sizes view and that the
long-activity view uses its `ORDER_MIN` constant for both bounds. -/
def sort_range_min (K : HeaderConsts) : context → Int
  | .pg_stat_database => K.PG_STAT_DATABASE_ORDER_MIN
  | .pg_stat_replication => K.PG_STAT_REPLICATION_ORDER_MIN
  | .pg_stat_user_tables => K.PG_STAT_USER_TABLES_ORDER_MIN
  | .pg_stat_user_indexes => K.PG_STAT_USER_INDEXES_ORDER_MIN
  | .pg_statio_user_tables => K.PG_STATIO_USER_TABLES_ORDER_MIN
  | .pg_tables_size => K.PG_TABLES_SIZE_ORDER_MIN - 3
  | .pg_stat_activity_long => K.PG_STAT_ACTIVITY_LONG_ORDER_MIN
  | .pg_stat_user_functions => K.PG_STAT_USER_FUNCTIONS_ORDER_MIN

/-- Upper bound of the wrap interval of `change_sort_order`. -/
def sort_range_max (K : HeaderConsts) : context → Int
  | .pg_stat_database => K.PG_STAT_DATABASE_ORDER_MAX
  | .pg_stat_replication => K.PG_STAT_REPLICATION_ORDER_MAX
  | .pg_stat_user_tables => K.PG_STAT_USER_TABLES_ORDER_MAX
  | .pg_stat_user_indexes => K.PG_STAT_USER_INDEXES_ORDER_MAX
  | .pg_statio_user_tables => K.PG_STATIO_USER_TABLES_ORDER_MAX
  | .pg_tables_size => K.PG_TABLES_SIZE_ORDER_MAX
  | .pg_stat_activity_long => K.PG_STAT_ACTIVITY_LONG_ORDER_MIN
  | .pg_stat_user_functions => K.PG_STAT_USER_FUNCTIONS_ORDER_MAX

/-- The order-key update applied by `change_sort_order` to the entry of
the active view: increment with wrap to `min` above `max`, or decrement
with wrap to `max` below `min`. -/
def order_key_step (m M : Int) (increment : Bool) (k : Int) : Int :=
  if increment then (if k + 1 > M then m else k + 1)
  else (if k - 1 < m then M else k - 1)

/-- Embedding of `change_sort_order` (src/pgcenter.c:1176): updates the
order key of the active view inside the wrap interval of the switch,
and for the user-functions view additionally raises `first_iter`. -/
def change_sort_order (K : HeaderConsts) (screens : screen_s) (increment : Bool)
    (first_iter : Bool) : screen_s × Bool :=
  let m := sort_range_min K screens.current_context
  let M := sort_range_max K screens.current_context
  let first_iter' :=
    if screens.current_context = .pg_stat_user_functions then true else first_iter
  ({ screens with
      context_list := fun c =>
        if c = screens.current_context then
          { screens.context_list c with
              order_key := order_key_step m M increment (screens.context_list c).order_key }
        else screens.context_list c },
   first_iter')

/-- The initial order key given to every view by `init_screens`
(src/pgcenter.c:92-115): the `ORDER_MIN` constant of the view. -/
def init_order_key (K : HeaderConsts) : context → Int
  | .pg_stat_database => K.PG_STAT_DATABASE_ORDER_MIN
  | .pg_stat_replication => K.PG_STAT_REPLICATION_ORDER_MIN
  | .pg_stat_user_tables => K.PG_STAT_USER_TABLES_ORDER_MIN
  | .pg_stat_user_indexes => K.PG_STAT_USER_INDEXES_ORDER_MIN
  | .pg_statio_user_tables => K.PG_STATIO_USER_TABLES_ORDER_MIN
  | .pg_tables_size => K.PG_TABLES_SIZE_ORDER_MIN
  | .pg_stat_activity_long => K.PG_STAT_ACTIVITY_LONG_ORDER_MIN
  | .pg_stat_user_functions => K.PG_STAT_USER_FUNCTIONS_ORDER_MIN

/-- The per-view sort state installed by `init_screens`: initial order
key and descending direction. -/
def init_context_list (K : HeaderConsts) : context → context_s :=
  fun c => { order_key := init_order_key K c, order_desc := true }

/- ------------------------------------------------------------------ -/
/- CPU statistics                                                      -/
/- ------------------------------------------------------------------ -/

/-- Embedding of `struct stats_cpu_struct`: the raw jiffy counters read
from /proc/stat. -/
structure stats_cpu_struct where
  cpu_user : Nat
  cpu_nice : Nat
  cpu_sys : Nat
  cpu_idle : Nat
  cpu_iowait : Nat
  cpu_steal : Nat
  cpu_hardirq : Nat
  cpu_softirq : Nat
  cpu_guest : Nat
  cpu_guest_nice : Nat
deriving DecidableEq

/-- The uptime value `read_cpu_stat` derives from the "cpu " line: the
sum of all ten counters (src/pgcenter.c:724-728). -/
def cpu_total (s : stats_cpu_struct) : Nat :=
  s.cpu_user + s.cpu_nice + s.cpu_sys + s.cpu_idle + s.cpu_iowait +
    s.cpu_steal + s.cpu_hardirq + s.cpu_softirq + s.cpu_guest + s.cpu_guest_nice

/-- Modelled from the spec: the `SP_VALUE` percentage macro of the
missing header pgcenter.h, `100 · (curr − prev) / interval`, computed
in rational arithmetic in place of the C `double`. -/
def SP_VALUE (value1 value2 itv : Nat) : ℚ :=
  ((value2 : ℚ) - (value1 : ℚ)) / (itv : ℚ) * 100

/-- Subtraction of two C `unsigned long long` values. -/
def sub64 (a b : Nat) : Nat :=
  (a + 2 ^ 64 - b % 2 ^ 64) % 2 ^ 64

/-- Embedding of `get_interval` (src/pgcenter.c:770): the counter
difference, forced to 1 when it is zero. -/
def get_interval (prev_uptime curr_uptime : Nat) : Nat :=
  let itv := sub64 curr_uptime prev_uptime
  if itv = 0 then 1 else itv

/-- Embedding of `ll_sp_value` (src/pgcenter.c:791): the dyn-tick
regression clamp around `SP_VALUE`. -/
def ll_sp_value (value1 value2 itv : Nat) : ℚ :=
  if value2 < value1 then 0 else SP_VALUE value1 value2 itv

/-- Embedding of `write_cpu_stat_raw` (src/pgcenter.c:811): the eight
printed percentages (us, sy, ni, id, wa, hi, si, st) computed from the
previous and current sample; `st_cpu[!curr]` is the previous sample and
`st_cpu[curr]` the current one.  The idle category carries its extra
explicit regression clamp. -/
def write_cpu_stat_raw (prev curr : stats_cpu_struct) (itv : Nat) : List ℚ :=
  [ ll_sp_value prev.cpu_user curr.cpu_user itv,
    ll_sp_value (prev.cpu_sys + prev.cpu_softirq + prev.cpu_hardirq)
      (curr.cpu_sys + curr.cpu_softirq + curr.cpu_hardirq) itv,
    ll_sp_value prev.cpu_nice curr.cpu_nice itv,
    if curr.cpu_idle < prev.cpu_idle then 0
      else ll_sp_value prev.cpu_idle curr.cpu_idle itv,
    ll_sp_value prev.cpu_iowait curr.cpu_iowait itv,
    ll_sp_value prev.cpu_hardirq curr.cpu_hardirq itv,
    ll_sp_value prev.cpu_softirq curr.cpu_softirq itv,
    ll_sp_value prev.cpu_steal curr.cpu_steal itv ]

/-- The composite one-tick CPU rendering of `print_cpu_usage`
(src/pgcenter.c:840): the interval is taken between the totals of the
previous and current sample and handed to `write_cpu_stat_raw`. -/
def print_cpu_usage_render (prev curr : stats_cpu_struct) : List ℚ :=
  write_cpu_stat_raw prev curr (get_interval (cpu_total prev) (cpu_total curr))

/- ------------------------------------------------------------------ -/
/- min_age validation                                                  -/
/- ------------------------------------------------------------------ -/

/-- Result of one `%u` conversion of `sscanf`: the parsed value and the
rest of the input, `none` on a matching failure. -/
def scanU (cs : List Char) : Option (Nat × List Char) :=
  match skipSpaces cs with
  | '-' :: t =>
    let p := takeDigits t
    if p.1 = [] then none
    else some ((2 ^ 32 - digitsToNat p.1 % 2 ^ 32) % 2 ^ 32, p.2)
  | '+' :: t =>
    let p := takeDigits t
    if p.1 = [] then none else some (digitsToNat p.1 % 2 ^ 32, p.2)
  | t =>
    let p := takeDigits t
    if p.1 = [] then none else some (digitsToNat p.1 % 2 ^ 32, p.2)

/-- Embedding of `sscanf(min_age, "%u:%u:%u", ...)`: the conversion
count (−1 on input failure before the first conversion, as in C) and
the list of converted values. -/
def sscanf_u3 (s : String) : Int × List Nat :=
  let cs := s.toList
  if skipSpaces cs = [] ∧ cs ≠ [] then (-1, [])
  else
    match scanU cs with
    | none => (0, [])
    | some (h, r1) =>
      match r1 with
      | ':' :: r2 =>
        match scanU r2 with
        | none => (1, [h])
        | some (m, r3) =>
          match r3 with
          | ':' :: r4 =>
            match scanU r4 with
            | none => (2, [h, m])
            | some (sc, _) => (3, [h, m, sc])
          | _ => (2, [h, m])
      | _ => (1, [h])

/-- The status message printed by a `min_age` commit. -/
inductive MinAgeMsg where
  | accepted
  | rejected
  | leave
  | canceled
deriving DecidableEq

/-- Embedding of the commit logic of `change_min_age`
(src/pgcenter.c:1310-1319) after `cmd_readline` has produced `input`
and `with_esc`.  `hour0`, `minute0` and `sec0` model the values left in
the three stack variables when `sscanf` converts fewer than three
items.  Returns the new `min_age` value and the status message. -/
def change_min_age_commit (hour0 minute0 sec0 : Nat) (old input : String)
    (with_esc : Bool) : String × MinAgeMsg :=
  if input.length ≠ 0 ∧ with_esc = false then
    let r := sscanf_u3 input
    let hour := r.2.getD 0 hour0
    let minute := r.2.getD 1 minute0
    let sec := r.2.getD 2 sec0
    if r.1 = 0 ∨ (hour > 23 ∨ minute > 59 ∨ sec > 59) then (old, .rejected)
    else (input, .accepted)
  else if input.length = 0 ∧ with_esc = false then (old, .leave)
  else (old, .canceled)

/- ------------------------------------------------------------------ -/
/- .pgcenterrc permission check                                        -/
/- ------------------------------------------------------------------ -/

/-- POSIX group read/write/execute permission mask. -/
def S_IRWXG : Nat := 0o70

/-- POSIX other read/write/execute permission mask. -/
def S_IRWXO : Nat := 0o7

/-- Outcome of `create_pgcenterrc_conn` on the connection file. -/
inductive PgcenterrcOutcome where
  | read_err_absent
  | read_err_perm_warning
  | read_ok
  | read_err_open_warning
deriving DecidableEq

/-- Embedding of the file acceptance chain of `create_pgcenterrc_conn`
(src/pgcenter.c:295-322): missing file, then the permission guard on
`st_mode & (S_IRWXG | S_IRWXO)` with its warning, then the open. -/
def create_pgcenterrc_conn_check (file_exists : Bool) (st_mode : Nat)
    (openable : Bool) : PgcenterrcOutcome :=
  if file_exists = false then .read_err_absent
  else if st_mode &&& (S_IRWXG ||| S_IRWXO) ≠ 0 then .read_err_perm_warning
  else if openable then .read_ok
  else .read_err_open_warning

/- ------------------------------------------------------------------ -/
/- the main refresh loop                                               -/
/- ------------------------------------------------------------------ -/

/-- Modelled from the spec: `MAX_CONSOLE` of the missing header
pgcenter.h; the spec fixes the console count at eight. -/
def MAX_CONSOLE : Nat := 8

/-- The mutable state of `main` that the refresh loop reads and writes:
the single process-wide `first_iter` flag, previous result and previous
row count, the active console index and the console array. -/
structure LoopState where
  first_iter : Bool
  p_res : Option PGres
  n_prev_rows : Int
  console_index : Fin MAX_CONSOLE
  screens : Fin MAX_CONSOLE → screen_s

/-- Embedding of `switch_conn` (src/pgcenter.c:904) restricted to its
returned index: keys `1`..`8` are modelled by the target index
`ch - '0' - 1`; the switch happens only when the target console has a
connection. -/
def switch_conn (screens : Fin MAX_CONSOLE → screen_s) (target : Fin MAX_CONSOLE)
    (console_index : Fin MAX_CONSOLE) : Fin MAX_CONSOLE :=
  if (screens target).conn_used then target else console_index

/-- The `case '1' .. '8'` arm of the keystroke switch in `main`
(src/pgcenter.c:1386-1388): only the console index changes. -/
def handle_console_key (st : LoopState) (target : Fin MAX_CONSOLE) : LoopState :=
  { st with console_index := switch_conn st.screens target st.console_index }

/-- Embedding of one pass of the sampling branch of the main loop
(src/pgcenter.c:1476-1535), from `do_query` to the render: returns the
updated loop state, the rows handed to `print_data` (`none` when the
tick skipped the render with `continue`), and whether the query-failure
message was printed. -/
def tick (K : HeaderConsts) (st : LoopState) (q : PQResult) :
    LoopState × Option (List Row) × Bool :=
  let dq := do_query q
  let c_res := dq.1
  let n_rows := PQntuples c_res
  let n_cols := PQnfields c_res
  if st.first_iter then
    ({ st with p_res := c_res, first_iter := false }, none, dq.2)
  else if st.n_prev_rows < (n_rows : Int) then
    ({ st with p_res := c_res, n_prev_rows := (n_rows : Int) }, none, dq.2)
  else
    let scr := st.screens st.console_index
    let p_arr := pgrescpy st.p_res n_rows n_cols
    let c_arr := pgrescpy c_res n_rows n_cols
    let r_arr := diff_arrays K p_arr c_arr scr.current_context n_rows n_cols
    let r_sorted := sort_array scr r_arr
    ({ st with p_res := c_res, n_prev_rows := (n_rows : Int) }, some r_sorted, dq.2)

/- ------------------------------------------------------------------ -/
/- Concrete instantiations used by counterexamples and witnesses       -/
/- ------------------------------------------------------------------ -/

/-- A concrete value of the header-constant record, used to instantiate
the parametric theorems at evaluable inputs. -/
def Kc : HeaderConsts :=
  { PG_STAT_DATABASE_ORDER_MIN := 1
    PG_STAT_DATABASE_ORDER_MAX := 15
    PG_STAT_REPLICATION_ORDER_MIN := 5
    PG_STAT_REPLICATION_ORDER_MAX := 9
    PG_STAT_USER_TABLES_ORDER_MIN := 3
    PG_STAT_USER_TABLES_ORDER_MAX := 15
    PG_STAT_USER_INDEXES_ORDER_MIN := 4
    PG_STAT_USER_INDEXES_ORDER_MAX := 7
    PG_STATIO_USER_TABLES_ORDER_MIN := 3
    PG_STATIO_USER_TABLES_ORDER_MAX := 9
    PG_TABLES_SIZE_ORDER_MIN := 4
    PG_TABLES_SIZE_ORDER_MAX := 6
    PG_STAT_ACTIVITY_LONG_ORDER_MIN := -1
    PG_STAT_ACTIVITY_LONG_ORDER_MAX := -1
    PG_STAT_USER_FUNCTIONS_ORDER_MIN := 3
    PG_STAT_USER_FUNCTIONS_ORDER_MAX := 6
    PG_STAT_USER_FUNCTIONS_DIFF_COL := 3 }

/-- A concrete console on the databases view with the sort state every
view receives from `init_screens`. -/
def screen0 : screen_s :=
  { conn_used := true
    current_context := .pg_stat_database
    context_list := init_context_list Kc
    pg_stat_activity_min_age := "00:00:00" }

/- ------------------------------------------------------------------ -/
/- C10: connection-file permissions                                    -/
/- ------------------------------------------------------------------ -/

/-- C10: the per-user connection file is consumed only when its mode has
no group or other read/write/execute bit; mode 0600 is consumed; any
group or other bit forces the ignored-with-warning outcome. -/
theorem C10_connection_file_permissions :
    (∀ m op, create_pgcenterrc_conn_check true m op = .read_ok →
      m &&& (S_IRWXG ||| S_IRWXO) = 0) ∧
    create_pgcenterrc_conn_check true 0o600 true = .read_ok ∧
    (∀ m op, m &&& (S_IRWXG ||| S_IRWXO) ≠ 0 →
      create_pgcenterrc_conn_check true m op = .read_err_perm_warning) := by
  refine ⟨?_, by decide, ?_⟩
  · intro m op h
    by_cases hm : m &&& (S_IRWXG ||| S_IRWXO) = 0
    · exact hm
    · simp [create_pgcenterrc_conn_check, hm] at h
  · intro m op h
    simp [create_pgcenterrc_conn_check, h]

/-- Witness for C10 at mode 0600 (consumed) and mode 0640 (group bit
set, ignored with a warning). -/
theorem C10_connection_file_permissions_witness :
    create_pgcenterrc_conn_check true 0o600 true = .read_ok ∧
    create_pgcenterrc_conn_check true 0o640 true = .read_err_perm_warning :=
  ⟨C10_connection_file_permissions.2.1,
   C10_connection_file_permissions.2.2 0o640 true (by decide)⟩


/- ------------------------------------------------------------------ -/
/- C8: min_age validation                                              -/
/- ------------------------------------------------------------------ -/

theorem string_eq_empty_of_length_eq_zero {s : String} (h : s.length = 0) : s = "" := by
  cases s with
  | mk data =>
    cases data with
    | nil => rfl
    | cons c cs => simp [String.length] at h

theorem change_min_age_commit_scan3 (hour0 minute0 sec0 : Nat) (old input : String)
    (h m s : Nat) (hscan : sscanf_u3 input = (3, [h, m, s])) :
    change_min_age_commit hour0 minute0 sec0 old input false
      = if h > 23 ∨ m > 59 ∨ s > 59 then (old, .rejected) else (input, .accepted) := by
  have hne : input ≠ "" := by
    intro he
    rw [he, show sscanf_u3 "" = ((0 : Int), ([] : List Nat)) from by decide] at hscan
    simp at hscan
  have hlen : input.length ≠ 0 := fun hl => hne (string_eq_empty_of_length_eq_zero hl)
  unfold change_min_age_commit
  rw [if_pos (show input.length ≠ 0 ∧ false = false from ⟨hlen, rfl⟩)]
  rw [hscan]
  have h30 : ¬((3 : Int) = 0) := by decide
  simp only [List.getD_cons_zero, List.getD_cons_succ, h30, false_or]

theorem change_min_age_commit_scan_fail (hour0 minute0 sec0 : Nat) (old input : String)
    (hscan : sscanf_u3 input = (0, [])) (hlen : input.length ≠ 0) :
    change_min_age_commit hour0 minute0 sec0 old input false = (old, .rejected) := by
  unfold change_min_age_commit
  rw [if_pos (show input.length ≠ 0 ∧ false = false from ⟨hlen, rfl⟩)]
  rw [hscan]
  simp

/-- C8: a committed `min_age` is validated as HH:MM:SS with the hour
below 24 and minute and second below 60; an invalid commit is rejected
and keeps the old value; an empty commit keeps the old value with the
leave message rather than the rejection message; the six spec examples
behave as stated. -/
theorem C8_min_age_validation :
    ∀ (hour0 minute0 sec0 : Nat) (old : String),
      (∀ (input : String) (h m s : Nat), sscanf_u3 input = (3, [h, m, s]) →
        (h ≤ 23 ∧ m ≤ 59 ∧ s ≤ 59 →
          change_min_age_commit hour0 minute0 sec0 old input false = (input, .accepted)) ∧
        (¬(h ≤ 23 ∧ m ≤ 59 ∧ s ≤ 59) →
          change_min_age_commit hour0 minute0 sec0 old input false = (old, .rejected))) ∧
      change_min_age_commit hour0 minute0 sec0 old "" false = (old, .leave) ∧
      change_min_age_commit hour0 minute0 sec0 old "00:00:00" false = ("00:00:00", .accepted) ∧
      change_min_age_commit hour0 minute0 sec0 old "23:59:59" false = ("23:59:59", .accepted) ∧
      change_min_age_commit hour0 minute0 sec0 old "01:02:03.99" false = ("01:02:03.99", .accepted) ∧
      change_min_age_commit hour0 minute0 sec0 old "24:00:00" false = (old, .rejected) ∧
      change_min_age_commit hour0 minute0 sec0 old "00:60:00" false = (old, .rejected) ∧
      change_min_age_commit hour0 minute0 sec0 old "abc" false = (old, .rejected) := by
  intro hour0 minute0 sec0 old
  refine ⟨?_, ?_, ?_, ?_, ?_, ?_, ?_, ?_⟩
  · intro input h m s hscan
    constructor
    · intro hv
      rw [change_min_age_commit_scan3 hour0 minute0 sec0 old input h m s hscan]
      rw [if_neg (by omega)]
    · intro hv
      rw [change_min_age_commit_scan3 hour0 minute0 sec0 old input h m s hscan]
      rw [if_pos (by omega)]
  · simp [change_min_age_commit]
  · rw [change_min_age_commit_scan3 hour0 minute0 sec0 old _ 0 0 0 (by decide)]
    rw [if_neg (by decide)]
  · rw [change_min_age_commit_scan3 hour0 minute0 sec0 old _ 23 59 59 (by decide)]
    rw [if_neg (by decide)]
  · rw [change_min_age_commit_scan3 hour0 minute0 sec0 old _ 1 2 3 (by decide)]
    rw [if_neg (by decide)]
  · rw [change_min_age_commit_scan3 hour0 minute0 sec0 old _ 24 0 0 (by decide)]
    rw [if_pos (by decide)]
  · rw [change_min_age_commit_scan3 hour0 minute0 sec0 old _ 0 60 0 (by decide)]
    rw [if_pos (by decide)]
  · exact change_min_age_commit_scan_fail hour0 minute0 sec0 old _ (by decide) (by decide)

/-- Witness for C8 at concrete values of the modelled uninitialised
stack variables and a concrete old value. -/
theorem C8_min_age_validation_witness :
    change_min_age_commit 7 8 9 "00:00:00" "23:59:59" false = ("23:59:59", .accepted) ∧
    change_min_age_commit 7 8 9 "00:00:00" "24:00:00" false = ("00:00:00", .rejected) :=
  ⟨((C8_min_age_validation 7 8 9 "00:00:00").1 "23:59:59" 23 59 59 (by decide)).1 (by decide),
   ((C8_min_age_validation 7 8 9 "00:00:00").1 "24:00:00" 24 0 0 (by decide)).2 (by decide)⟩

/- ------------------------------------------------------------------ -/
/- C7: CPU regression clamp                                            -/
/- ------------------------------------------------------------------ -/

/-- The counter behind each of the eight rendered CPU categories
(us, sy, ni, id, wa, hi, si, st); the sy category is the kernel-time
aggregate `sys + softirq + hardirq` printed by `write_cpu_stat_raw`. -/
def cpu_cat (s : stats_cpu_struct) : Fin 8 → Nat
  | 0 => s.cpu_user
  | 1 => s.cpu_sys + s.cpu_softirq + s.cpu_hardirq
  | 2 => s.cpu_nice
  | 3 => s.cpu_idle
  | 4 => s.cpu_iowait
  | 5 => s.cpu_hardirq
  | 6 => s.cpu_softirq
  | 7 => s.cpu_steal

theorem sub64_self (u : Nat) : sub64 u u = 0 := by
  unfold sub64
  omega

/-- C7: every CPU category whose current counter regressed renders
exactly 0; otherwise it renders `100 · (curr − prev) / interval`; the
interval is 1 when the previous and current totals coincide. -/
theorem C7_cpu_regression_clamp :
    ∀ (prev curr : stats_cpu_struct),
      (∀ j : Fin 8, cpu_cat curr j < cpu_cat prev j →
        (print_cpu_usage_render prev curr).getD j 0 = 0) ∧
      (∀ j : Fin 8, cpu_cat prev j ≤ cpu_cat curr j →
        (print_cpu_usage_render prev curr).getD j 0
          = ((cpu_cat curr j : ℚ) - (cpu_cat prev j : ℚ))
              / ((get_interval (cpu_total prev) (cpu_total curr) : Nat) : ℚ) * 100) ∧
      (cpu_total prev = cpu_total curr →
        get_interval (cpu_total prev) (cpu_total curr) = 1) := by
  intro prev curr
  refine ⟨?_, ?_, ?_⟩
  · intro j hj
    fin_cases j <;>
      simp_all [print_cpu_usage_render, write_cpu_stat_raw, ll_sp_value, cpu_cat]
  · intro j hj
    fin_cases j <;>
      simp_all [print_cpu_usage_render, write_cpu_stat_raw, ll_sp_value, SP_VALUE,
        cpu_cat, Nat.not_lt.mpr, if_neg, Nat.lt_iff_add_one_le]
  · intro h
    rw [h]
    unfold get_interval
    rw [sub64_self]
    rfl

/-- Witness for C7: a regressed user counter renders 0, a grown nice
counter renders the rate formula, and equal totals force interval 1. -/
theorem C7_cpu_regression_clamp_witness :
    ((print_cpu_usage_render ⟨100, 5, 0, 0, 0, 0, 0, 0, 0, 0⟩
        ⟨90, 15, 0, 0, 0, 0, 0, 0, 0, 0⟩).getD (0 : Fin 8) 0 = 0) ∧
    ((print_cpu_usage_render ⟨100, 5, 0, 0, 0, 0, 0, 0, 0, 0⟩
        ⟨90, 15, 0, 0, 0, 0, 0, 0, 0, 0⟩).getD (2 : Fin 8) 0
      = (((15 : ℚ) - 5)
          / ((get_interval (cpu_total ⟨100, 5, 0, 0, 0, 0, 0, 0, 0, 0⟩)
              (cpu_total ⟨90, 15, 0, 0, 0, 0, 0, 0, 0, 0⟩) : Nat) : ℚ) * 100)) ∧
    get_interval (cpu_total ⟨100, 5, 0, 0, 0, 0, 0, 0, 0, 0⟩)
        (cpu_total ⟨90, 15, 0, 0, 0, 0, 0, 0, 0, 0⟩) = 1 := by
  refine ⟨(C7_cpu_regression_clamp _ _).1 0 (by decide), ?_, ?_⟩
  · exact (C7_cpu_regression_clamp ⟨100, 5, 0, 0, 0, 0, 0, 0, 0, 0⟩
      ⟨90, 15, 0, 0, 0, 0, 0, 0, 0, 0⟩).2.1 2 (by decide)
  · exact (C7_cpu_regression_clamp ⟨100, 5, 0, 0, 0, 0, 0, 0, 0, 0⟩
      ⟨90, 15, 0, 0, 0, 0, 0, 0, 0, 0⟩).2.2 (by decide)

/- ------------------------------------------------------------------ -/
/- C5: diff correctness                                                -/
/- ------------------------------------------------------------------ -/

theorem cellAt_range_map (f : Nat → Nat → Cell) (R C i j : Nat)
    (hi : i < R) (hj : j < C) :
    cellAt ((List.range R).map fun i => (List.range C).map fun j => f i j) i j
      = f i j := by
  unfold cellAt
  have h1 : ((List.range R).map fun i => (List.range C).map fun j => f i j).getD i []
      = (List.range C).map fun j => f i j := by
    rw [List.getD_eq_getElem _ _ (by simpa using hi)]
    rw [List.getElem_map, List.getElem_range]
  rw [h1]
  rw [List.getD_eq_getElem _ _ (by simpa using hj)]
  rw [List.getElem_map, List.getElem_range]

theorem table_rebuild (t : List Row) (R C : Nat) (h : tableShape t R C) :
    ((List.range R).map fun i => (List.range C).map fun j => cellAt t i j) = t := by
  obtain ⟨hlen, hrow⟩ := h
  apply List.ext_getElem
  · simpa using hlen.symm
  · intro i h1 h2
    have hiR : i < R := by simpa using h1
    rw [List.getElem_map, List.getElem_range]
    have hrowlen : t[i].length = C := hrow t[i] (List.getElem_mem h2)
    apply List.ext_getElem
    · simpa using hrowlen.symm
    · intro j hj1 hj2
      have hjC : j < C := by simpa using hj1
      rw [List.getElem_map, List.getElem_range]
      unfold cellAt
      rw [List.getD_eq_getElem _ _ h2]
      rw [List.getD_eq_getElem _ _ (by omega)]

/-- C5: for same-shape tables, a cell of `diff_arrays` inside the diff
range of the view is the decimal formatting of the difference of the
signed 64-bit parses of the current and previous cells, a cell outside
the range is copied verbatim from the current table, the result always
has the full shape (the operation never aborts), a parse failure
contributes 0, and an empty diff range yields the current table. -/
theorem C5_diff_correctness :
    ∀ (K : HeaderConsts) (ctx : context) (p c : List Row) (n_rows n_cols : Nat),
      tableShape p n_rows n_cols → tableShape c n_rows n_cols →
      tableShape (diff_arrays K p c ctx n_rows n_cols) n_rows n_cols ∧
      (∀ i j, i < n_rows → j < n_cols →
        ((diff_range K ctx).1 ≤ (j : Int) ∧ (j : Int) ≤ (diff_range K ctx).2 →
          cellAt (diff_arrays K p c ctx n_rows n_cols) i j
            = formatLLI (atoll (cellAt c i j) - atoll (cellAt p i j))) ∧
        ((j : Int) < (diff_range K ctx).1 ∨ (diff_range K ctx).2 < (j : Int) →
          cellAt (diff_arrays K p c ctx n_rows n_cols) i j = cellAt c i j)) ∧
      ((diff_range K ctx).2 < (diff_range K ctx).1 ∨ (diff_range K ctx).2 < 0 →
        diff_arrays K p c ctx n_rows n_cols = c) ∧
      (∀ s, strtollNum s = none → atoll s = 0) := by
  intro K ctx p c n_rows n_cols hp hc
  refine ⟨?_, ?_, ?_, ?_⟩
  · constructor
    · simp [diff_arrays]
    · intro row hrow
      simp only [diff_arrays, List.mem_map, List.mem_range] at hrow
      obtain ⟨i, _, rfl⟩ := hrow
      simp
  · intro i j hi hj
    constructor
    · intro hin
      unfold diff_arrays
      rw [cellAt_range_map _ n_rows n_cols i j hi hj]
      rw [if_neg (by omega)]
    · intro hout
      unfold diff_arrays
      rw [cellAt_range_map _ n_rows n_cols i j hi hj]
      rw [if_pos (by omega)]
  · intro hempty
    unfold diff_arrays
    have : ∀ i j : Nat,
        (if (j : Int) < (diff_range K ctx).1 ∨ (j : Int) > (diff_range K ctx).2
          then cellAt c i j
          else formatLLI (atoll (cellAt c i j) - atoll (cellAt p i j))) = cellAt c i j := by
      intro i j
      rw [if_pos (by omega)]
    simp only [this]
    exact table_rebuild c n_rows n_cols hc
  · intro s hs
    unfold atoll
    rw [hs]

/-- Witness for C5 on a concrete pair of 2-times-2 tables on the
databases view. -/
theorem C5_diff_correctness_witness :
    cellAt (diff_arrays Kc [["a", "10"], ["b", "20"]] [["a", "15"], ["b", "26"]]
        .pg_stat_database 2 2) 0 1
      = formatLLI (atoll (cellAt [["a", "15"], ["b", "26"]] 0 1)
          - atoll (cellAt [["a", "10"], ["b", "20"]] 0 1)) ∧
    cellAt (diff_arrays Kc [["a", "10"], ["b", "20"]] [["a", "15"], ["b", "26"]]
        .pg_stat_database 2 2) 0 0
      = cellAt [["a", "15"], ["b", "26"]] 0 0 :=
  ⟨(((C5_diff_correctness Kc .pg_stat_database [["a", "10"], ["b", "20"]]
      [["a", "15"], ["b", "26"]] 2 2 ⟨by decide, by decide⟩ ⟨by decide, by decide⟩).2.1 0 1
        (by decide) (by decide)).1 (by decide)),
   (((C5_diff_correctness Kc .pg_stat_database [["a", "10"], ["b", "20"]]
      [["a", "15"], ["b", "26"]] 2 2 ⟨by decide, by decide⟩ ⟨by decide, by decide⟩).2.1 0 0
        (by decide) (by decide)).2 (by decide))⟩

/- ------------------------------------------------------------------ -/
/- helper facts about sort_array on the empty table                    -/
/- ------------------------------------------------------------------ -/

theorem sort_pass_nil (d : Bool) (k : Int) : sort_pass d k [] = [] := by
  simp [sort_pass]

theorem sort_array_nil (screen : screen_s) : sort_array screen [] = [] := by
  unfold sort_array
  split_ifs <;> simp [sort_pass_nil]

/- ------------------------------------------------------------------ -/
/- C3: first tick promotes the snapshot but not the row count          -/
/- ------------------------------------------------------------------ -/

/-- A loop state whose first tick is pending while the stored previous
row count holds the (uninitialised) value 5. -/
def stFirst : LoopState :=
  { first_iter := true
    p_res := none
    n_prev_rows := 5
    console_index := ⟨0, by decide⟩
    screens := fun _ => screen0 }

/-- The two-row result returned by the first tick. -/
def tFirst : PGres := ⟨[["a", "1"], ["b", "2"]], 2⟩

/-- C3: on the first tick the engine promotes the current result to the
baseline, clears `first_iter` and renders nothing — but it leaves the
previous row count untouched (here still 5 instead of the current row
count 2), contradicting the claim that the previous row count is set to
the current row count. -/
theorem C3_first_tick_rebase :
    (tick Kc stFirst (.tuplesOk tFirst)).1.first_iter = false ∧
    (tick Kc stFirst (.tuplesOk tFirst)).1.p_res = some tFirst ∧
    (tick Kc stFirst (.tuplesOk tFirst)).2.1 = none ∧
    (tick Kc stFirst (.tuplesOk tFirst)).1.n_prev_rows = 5 ∧
    tFirst.rows.length = 2 ∧ (5 : Int) ≠ (2 : Int) :=
  ⟨rfl, rfl, rfl, rfl, rfl, by decide⟩

/- ------------------------------------------------------------------ -/
/- C1: behaviour of a tick whose query fails                           -/
/- ------------------------------------------------------------------ -/

/-- A settled loop state (first tick done, baseline of one row held). -/
def stSettled : LoopState :=
  { first_iter := false
    p_res := some ⟨[["7"]], 1⟩
    n_prev_rows := 1
    console_index := ⟨0, by decide⟩
    screens := fun _ => screen0 }

/-- Counterexample to C1: with a settled baseline, a failed query does
not skip the tick — the render still happens (on the empty 0-row table,
so `print_data` is reached with an empty array) and the baseline is
advanced to the NULL result with previous row count 0. -/
theorem C1_query_failure_counterexample :
    (tick Kc stSettled .failed).2.1 = some [] ∧
    (tick Kc stSettled .failed).1.p_res = none ∧
    (tick Kc stSettled .failed).1.n_prev_rows = 0 ∧
    stSettled.p_res ≠ none ∧
    stSettled.n_prev_rows = 1 := by
  refine ⟨?_, rfl, rfl, by decide, rfl⟩
  show some (sort_array screen0 (diff_arrays Kc [] [] screen0.current_context 0 0)) = some []
  rw [show diff_arrays Kc [] [] screen0.current_context 0 0 = [] from rfl]
  rw [sort_array_nil]

/-- C1 (amended): when the query fails the failure message is printed;
if `first_iter` is clear and the stored previous row count is
non-negative the tick does not skip: the diff/sort/render pipeline runs
on the empty 0-by-0 table, an empty table is rendered, and the baseline
is advanced to the NULL result with previous row count 0. -/
theorem C1_query_failure_amended :
    ∀ (K : HeaderConsts) (st : LoopState),
      st.first_iter = false →
      0 ≤ st.n_prev_rows →
      tick K st .failed
        = ({ st with p_res := none, n_prev_rows := 0 }, some [], true) := by
  intro K st h1 h2
  unfold tick
  rw [h1]
  simp only [do_query, Bool.false_eq_true, if_false]
  rw [if_neg (by simp [PQntuples]; omega)]
  have hd : diff_arrays K (pgrescpy (st.p_res) 0 0) (pgrescpy none 0 0)
      (st.screens st.console_index).current_context 0 0 = [] := rfl
  simp only [PQntuples, PQnfields, pgrescpy, List.range_zero, List.map_nil]
  rw [show diff_arrays K [] [] (st.screens st.console_index).current_context 0 0 = []
    from rfl]
  rw [sort_array_nil]
  rfl

/-- Witness for C1 (amended) at the settled concrete state. -/
theorem C1_query_failure_amended_witness :
    tick Kc stSettled .failed
      = ({ stSettled with p_res := none, n_prev_rows := 0 }, some [], true) :=
  C1_query_failure_amended Kc stSettled rfl (by decide)

/- ------------------------------------------------------------------ -/
/- general facts about one tick                                        -/
/- ------------------------------------------------------------------ -/

theorem tick_grow (K : HeaderConsts) (st : LoopState) (t : PGres)
    (h1 : st.first_iter = false) (h2 : st.n_prev_rows < (t.rows.length : Int)) :
    tick K st (.tuplesOk t)
      = ({ st with p_res := some t, n_prev_rows := (t.rows.length : Int) }, none, false) := by
  unfold tick
  rw [h1]
  simp only [do_query, Bool.false_eq_true, if_false, PQntuples, PQnfields]
  rw [if_pos h2]

theorem tick_render (K : HeaderConsts) (st : LoopState) (t : PGres)
    (h1 : st.first_iter = false) (h2 : (t.rows.length : Int) ≤ st.n_prev_rows) :
    tick K st (.tuplesOk t)
      = ({ st with p_res := some t, n_prev_rows := (t.rows.length : Int) },
         some (sort_array (st.screens st.console_index)
           (diff_arrays K
             (pgrescpy st.p_res t.rows.length t.ncols)
             (pgrescpy (some t) t.rows.length t.ncols)
             (st.screens st.console_index).current_context t.rows.length t.ncols)),
         false) := by
  unfold tick
  rw [h1]
  simp only [do_query, Bool.false_eq_true, if_false, PQntuples, PQnfields]
  rw [if_neg (by omega)]

/- ------------------------------------------------------------------ -/
/- C4: rebase on row growth                                            -/
/- ------------------------------------------------------------------ -/

/-- C4: after a rendered tick of `r1` rows, a tick of `r2 > r1` rows
renders nothing and promotes its table to the baseline with previous
row count `r2`; the following tick of `r2` rows diffs against that
baseline, sorts and renders. -/
theorem C4_rebase_on_row_growth :
    ∀ (K : HeaderConsts) (st : LoopState) (t1 t2 t3 : PGres),
      st.first_iter = false →
      (t1.rows.length : Int) ≤ st.n_prev_rows →
      t1.rows.length < t2.rows.length →
      t3.rows.length = t2.rows.length →
      (tick K st (.tuplesOk t1)).2.1 ≠ none ∧
      (tick K (tick K st (.tuplesOk t1)).1 (.tuplesOk t2)).2.1 = none ∧
      (tick K (tick K st (.tuplesOk t1)).1 (.tuplesOk t2)).1.p_res = some t2 ∧
      (tick K (tick K st (.tuplesOk t1)).1 (.tuplesOk t2)).1.n_prev_rows
        = (t2.rows.length : Int) ∧
      (tick K (tick K (tick K st (.tuplesOk t1)).1 (.tuplesOk t2)).1 (.tuplesOk t3)).2.1
        = some (sort_array (st.screens st.console_index)
            (diff_arrays K
              (pgrescpy (some t2) t3.rows.length t3.ncols)
              (pgrescpy (some t3) t3.rows.length t3.ncols)
              (st.screens st.console_index).current_context t3.rows.length t3.ncols)) ∧
      (tick K (tick K (tick K st (.tuplesOk t1)).1 (.tuplesOk t2)).1 (.tuplesOk t3)).1.p_res
        = some t3 ∧
      (tick K (tick K (tick K st (.tuplesOk t1)).1 (.tuplesOk t2)).1 (.tuplesOk t3)).1.n_prev_rows
        = (t3.rows.length : Int) := by
  intro K st t1 t2 t3 hfi h1 h12 h32
  rw [tick_render K st t1 hfi h1]
  dsimp only
  rw [tick_grow K { st with p_res := some t1, n_prev_rows := (t1.rows.length : Int) } t2 hfi
    (by dsimp only; exact_mod_cast h12)]
  dsimp only
  rw [tick_render K { st with p_res := some t2, n_prev_rows := (t2.rows.length : Int) } t3 hfi
    (by dsimp only; omega)]
  refine ⟨by simp, rfl, rfl, rfl, rfl, rfl, rfl⟩

/-- Witness for C4: a 1-row rendered tick, a 2-row growth tick (render
skipped), then a 2-row tick that renders the sorted diff. -/
theorem C4_rebase_on_row_growth_witness :
    (tick Kc (tick Kc stSettled (.tuplesOk ⟨[["1"]], 1⟩)).1
        (.tuplesOk ⟨[["2"], ["3"]], 1⟩)).2.1 = none ∧
    (tick Kc (tick Kc (tick Kc stSettled (.tuplesOk ⟨[["1"]], 1⟩)).1
          (.tuplesOk ⟨[["2"], ["3"]], 1⟩)).1 (.tuplesOk ⟨[["4"], ["5"]], 1⟩)).2.1
      = some (sort_array (stSettled.screens stSettled.console_index)
          (diff_arrays Kc
            (pgrescpy (some ⟨[["2"], ["3"]], 1⟩) 2 1)
            (pgrescpy (some ⟨[["4"], ["5"]], 1⟩) 2 1)
            (stSettled.screens stSettled.console_index).current_context 2 1)) :=
  ⟨(C4_rebase_on_row_growth Kc stSettled ⟨[["1"]], 1⟩ ⟨[["2"], ["3"]], 1⟩
      ⟨[["4"], ["5"]], 1⟩ rfl (by decide) (by decide) rfl).2.1,
   (C4_rebase_on_row_growth Kc stSettled ⟨[["1"]], 1⟩ ⟨[["2"], ["3"]], 1⟩
      ⟨[["4"], ["5"]], 1⟩ rfl (by decide) (by decide) rfl).2.2.2.2.1⟩

/- ------------------------------------------------------------------ -/
/- C9: console switch leaves flag and baseline untouched               -/
/- ------------------------------------------------------------------ -/

/-- C9: the first-iteration flag, previous result and previous row
count are process-wide: a console-switch keystroke changes the console
index only (and only when the target has a connection), and the next
rendered tick diffs the new console result against the snapshot taken
on the previously active console whenever the current row count does
not exceed the stored previous row count. -/
theorem C9_console_switch_shares_baseline :
    ∀ (K : HeaderConsts) (st : LoopState) (target : Fin MAX_CONSOLE) (c : PGres),
      (handle_console_key st target).first_iter = st.first_iter ∧
      (handle_console_key st target).p_res = st.p_res ∧
      (handle_console_key st target).n_prev_rows = st.n_prev_rows ∧
      (handle_console_key st target).screens = st.screens ∧
      ((st.screens target).conn_used = true →
        (handle_console_key st target).console_index = target) ∧
      (st.first_iter = false → (c.rows.length : Int) ≤ st.n_prev_rows →
        (tick K (handle_console_key st target) (.tuplesOk c)).2.1
          = some (sort_array
              (st.screens (handle_console_key st target).console_index)
              (diff_arrays K
                (pgrescpy st.p_res c.rows.length c.ncols)
                (pgrescpy (some c) c.rows.length c.ncols)
                (st.screens (handle_console_key st target).console_index).current_context
                c.rows.length c.ncols))) := by
  intro K st target c
  refine ⟨rfl, rfl, rfl, rfl, ?_, ?_⟩
  · intro hconn
    unfold handle_console_key switch_conn
    rw [hconn]
    simp
  · intro hfi hrows
    rw [tick_render K (handle_console_key st target) c hfi hrows]
    rfl

/-- Witness for C9: switching from console 0 to console 1 keeps the
baseline of console 0, and the next tick on console 1 diffs against it
using the console-1 view. -/
def screen1 : screen_s :=
  { conn_used := true
    current_context := .pg_stat_user_tables
    context_list := init_context_list Kc
    pg_stat_activity_min_age := "00:00:00" }

/-- A state with console 0 active and a different view on console 1. -/
def stTwoConsoles : LoopState :=
  { first_iter := false
    p_res := some ⟨[["7", "8"]], 2⟩
    n_prev_rows := 1
    console_index := ⟨0, by decide⟩
    screens := fun i => if i.val = 1 then screen1 else screen0 }

theorem C9_console_switch_shares_baseline_witness :
    (handle_console_key stTwoConsoles ⟨1, by decide⟩).p_res = stTwoConsoles.p_res ∧
    (tick Kc (handle_console_key stTwoConsoles ⟨1, by decide⟩)
        (.tuplesOk ⟨[["9", "9"]], 2⟩)).2.1
      = some (sort_array
          (stTwoConsoles.screens
            (handle_console_key stTwoConsoles ⟨1, by decide⟩).console_index)
          (diff_arrays Kc
            (pgrescpy stTwoConsoles.p_res 1 2)
            (pgrescpy (some ⟨[["9", "9"]], 2⟩) 1 2)
            (stTwoConsoles.screens
              (handle_console_key stTwoConsoles ⟨1, by decide⟩).console_index).current_context
            1 2)) :=
  ⟨(C9_console_switch_shares_baseline Kc stTwoConsoles ⟨1, by decide⟩
      ⟨[["9", "9"]], 2⟩).2.1,
   (C9_console_switch_shares_baseline Kc stTwoConsoles ⟨1, by decide⟩
      ⟨[["9", "9"]], 2⟩).2.2.2.2.2 rfl (by decide)⟩

/- ------------------------------------------------------------------ -/
/- C6: sort_array correctness                                          -/
/- ------------------------------------------------------------------ -/

theorem row_ord_refl (d : Bool) (k : Int) (a : Row) : row_ord d k a a := by
  cases d <;> simp [row_ord]

theorem row_ord_total (d : Bool) (k : Int) (a b : Row)
    (h : ¬ row_ord d k a b) : row_ord d k b a := by
  cases d <;> simp [row_ord] at h ⊢ <;> omega

theorem row_ord_trans (d : Bool) (k : Int) (a b c : Row)
    (h1 : row_ord d k a b) (h2 : row_ord d k b c) : row_ord d k a c := by
  cases d <;> simp [row_ord] at h1 h2 ⊢ <;> omega

theorem swap_cond_eq_false_iff (d : Bool) (k : Int) (a b : Row) :
    swap_cond d k a b = false ↔ row_ord d k a b := by
  cases d <;> simp [swap_cond, row_ord]

theorem swap_cond_eq_true_iff (d : Bool) (k : Int) (a b : Row) :
    swap_cond d k a b = true ↔ ¬ row_ord d k a b := by
  rw [← swap_cond_eq_false_iff]
  cases swap_cond d k a b <;> simp

theorem sort_scan_perm (d : Bool) (k : Int) (cur : Row) (l : List Row) :
    List.Perm ((sort_scan d k cur l).1 :: (sort_scan d k cur l).2) (cur :: l) := by
  induction l generalizing cur with
  | nil => simp [sort_scan]
  | cons x rest ih =>
    by_cases h : swap_cond d k cur x = true
    · simp only [sort_scan, h, if_true]
      have s1 : List.Perm
          ((sort_scan d k x rest).1 :: cur :: (sort_scan d k x rest).2)
          (cur :: (sort_scan d k x rest).1 :: (sort_scan d k x rest).2) :=
        List.Perm.swap cur (sort_scan d k x rest).1 (sort_scan d k x rest).2
      exact s1.trans ((ih x).cons cur)
    · rw [Bool.not_eq_true] at h
      simp only [sort_scan, h, Bool.false_eq_true, if_false]
      have s1 : List.Perm
          ((sort_scan d k cur rest).1 :: x :: (sort_scan d k cur rest).2)
          (x :: (sort_scan d k cur rest).1 :: (sort_scan d k cur rest).2) :=
        List.Perm.swap x (sort_scan d k cur rest).1 (sort_scan d k cur rest).2
      have s2 : List.Perm (x :: cur :: rest) (cur :: x :: rest) :=
        List.Perm.swap cur x rest
      exact (s1.trans ((ih cur).cons x)).trans s2

theorem sort_scan_extreme (d : Bool) (k : Int) (cur : Row) (l : List Row) :
    row_ord d k (sort_scan d k cur l).1 cur ∧
    ∀ y ∈ l, row_ord d k (sort_scan d k cur l).1 y := by
  induction l generalizing cur with
  | nil => exact ⟨row_ord_refl d k cur, by simp⟩
  | cons x rest ih =>
    by_cases h : swap_cond d k cur x = true
    · simp only [sort_scan, h, if_true]
      have hxc : row_ord d k x cur :=
        row_ord_total d k cur x ((swap_cond_eq_true_iff d k cur x).mp h)
      refine ⟨row_ord_trans d k _ x cur (ih x).1 hxc, ?_⟩
      intro y hy
      rcases List.mem_cons.mp hy with rfl | hy
      · exact (ih y).1
      · exact (ih x).2 y hy
    · rw [Bool.not_eq_true] at h
      simp only [sort_scan, h, Bool.false_eq_true, if_false]
      have hcx : row_ord d k cur x := (swap_cond_eq_false_iff d k cur x).mp h
      refine ⟨(ih cur).1, ?_⟩
      intro y hy
      rcases List.mem_cons.mp hy with rfl | hy
      · exact row_ord_trans d k _ cur y (ih cur).1 hcx
      · exact (ih cur).2 y hy

theorem sort_pass_perm_aux (d : Bool) (k : Int) :
    ∀ (n : Nat) (l : List Row), l.length ≤ n → List.Perm (sort_pass d k l) l := by
  intro n
  induction n with
  | zero =>
    intro l hl
    rw [List.length_eq_zero.mp (Nat.le_zero.mp hl)]
    simp [sort_pass]
  | succ n ih =>
    intro l hl
    cases l with
    | nil => simp [sort_pass]
    | cons r rest =>
      rw [sort_pass]
      have hlen : (sort_scan d k r rest).2.length ≤ n := by
        rw [sort_scan_snd_length]
        simpa using hl
      exact ((ih _ hlen).cons _).trans (sort_scan_perm d k r rest)

theorem sort_pass_perm (d : Bool) (k : Int) (l : List Row) :
    List.Perm (sort_pass d k l) l :=
  sort_pass_perm_aux d k l.length l le_rfl

theorem sort_pass_sorted_aux (d : Bool) (k : Int) :
    ∀ (n : Nat) (l : List Row), l.length ≤ n →
      List.Pairwise (row_ord d k) (sort_pass d k l) := by
  intro n
  induction n with
  | zero =>
    intro l hl
    rw [List.length_eq_zero.mp (Nat.le_zero.mp hl)]
    simp [sort_pass]
  | succ n ih =>
    intro l hl
    cases l with
    | nil => simp [sort_pass]
    | cons r rest =>
      rw [sort_pass]
      have hlen : (sort_scan d k r rest).2.length ≤ n := by
        rw [sort_scan_snd_length]
        simpa using hl
      refine List.Pairwise.cons ?_ (ih _ hlen)
      intro y hy
      have hy2 : y ∈ (sort_scan d k r rest).2 :=
        (sort_pass_perm d k _).mem_iff.mp hy
      have hy3 : y ∈ r :: rest :=
        (sort_scan_perm d k r rest).mem_iff.mp (List.mem_cons_of_mem _ hy2)
      rcases List.mem_cons.mp hy3 with rfl | hy4
      · exact (sort_scan_extreme d k y rest).1
      · exact (sort_scan_extreme d k r rest).2 y hy4

theorem sort_pass_sorted (d : Bool) (k : Int) (l : List Row) :
    List.Pairwise (row_ord d k) (sort_pass d k l) :=
  sort_pass_sorted_aux d k l.length l le_rfl

theorem sort_array_eq (screen : screen_s) (arr : List Row) :
    sort_array screen arr
      = if screen.current_context = .pg_stat_user_functions then arr
        else if (screen.context_list screen.current_context).order_key
            = INVALID_ORDER_KEY then arr
        else sort_pass (screen.context_list screen.current_context).order_desc
          (screen.context_list screen.current_context).order_key arr := rfl

/-- C6 (amended): the sort reorders whole rows (the result is a
permutation of the input rows), is a no-op when the order key is
`INVALID_ORDER_KEY` and also when the active view is user-functions
(whose sort is server-side), and otherwise orders the rows by the
signed 64-bit parse of the order-key cell, larger values first for the
descending direction and smaller values first otherwise. -/
theorem C6_sort_in_place_amended :
    ∀ (screen : screen_s) (arr : List Row),
      List.Perm (sort_array screen arr) arr ∧
      ((screen.context_list screen.current_context).order_key = INVALID_ORDER_KEY →
        sort_array screen arr = arr) ∧
      (screen.current_context = .pg_stat_user_functions →
        sort_array screen arr = arr) ∧
      (screen.current_context ≠ .pg_stat_user_functions →
        (screen.context_list screen.current_context).order_key ≠ INVALID_ORDER_KEY →
        ((screen.context_list screen.current_context).order_desc = true →
          List.Pairwise
            (fun a b =>
              key_at (screen.context_list screen.current_context).order_key b
                ≤ key_at (screen.context_list screen.current_context).order_key a)
            (sort_array screen arr)) ∧
        ((screen.context_list screen.current_context).order_desc = false →
          List.Pairwise
            (fun a b =>
              key_at (screen.context_list screen.current_context).order_key a
                ≤ key_at (screen.context_list screen.current_context).order_key b)
            (sort_array screen arr))) := by
  intro screen arr
  refine ⟨?_, ?_, ?_, ?_⟩
  · rw [sort_array_eq]
    split_ifs <;> first
      | exact List.Perm.refl arr
      | exact sort_pass_perm _ _ arr
  · intro hk
    rw [sort_array_eq]
    split_ifs <;> rfl
  · intro hc
    rw [sort_array_eq, if_pos hc]
  · intro hc hk
    have hrw : sort_array screen arr
        = sort_pass (screen.context_list screen.current_context).order_desc
            (screen.context_list screen.current_context).order_key arr := by
      rw [sort_array_eq, if_neg hc, if_neg hk]
    constructor
    · intro hd
      rw [hrw, hd]
      exact (sort_pass_sorted true
          (screen.context_list screen.current_context).order_key arr).imp
        (fun h => by simpa [row_ord] using h)
    · intro hd
      rw [hrw, hd]
      exact (sort_pass_sorted false
          (screen.context_list screen.current_context).order_key arr).imp
        (fun h => by simpa [row_ord] using h)

/-- A console on the user-functions view with a valid order key. -/
def screenUF : screen_s :=
  { conn_used := true
    current_context := .pg_stat_user_functions
    context_list := fun _ => { order_key := 0, order_desc := true }
    pg_stat_activity_min_age := "00:00:00" }

/-- Counterexample to C6: on the user-functions view `sort_array` is a
no-op even though the order key is valid (0) and the direction is
descending, so the output is not larger-values-first. -/
theorem C6_sort_in_place_counterexample :
    (screenUF.context_list screenUF.current_context).order_key ≠ INVALID_ORDER_KEY ∧
    (screenUF.context_list screenUF.current_context).order_desc = true ∧
    sort_array screenUF [["1"], ["2"]] = [["1"], ["2"]] ∧
    ¬ List.Pairwise (fun a b => key_at 0 b ≤ key_at 0 a)
        (sort_array screenUF [["1"], ["2"]]) := by
  refine ⟨by decide, rfl, rfl, ?_⟩
  rw [show sort_array screenUF [["1"], ["2"]] = [["1"], ["2"]] from rfl]
  intro hp
  have := List.rel_of_pairwise_cons hp (List.mem_singleton.mpr rfl)
  revert this
  decide

/-- Witness for C6 (amended): a concrete descending sort on the
databases view, its permutation property and its sortedness. -/
theorem C6_sort_in_place_amended_witness :
    List.Perm (sort_array screen0 [["a", "1"], ["b", "3"], ["c", "2"]])
      [["a", "1"], ["b", "3"], ["c", "2"]] ∧
    List.Pairwise
      (fun a b =>
        key_at (screen0.context_list screen0.current_context).order_key b
          ≤ key_at (screen0.context_list screen0.current_context).order_key a)
      (sort_array screen0 [["a", "1"], ["b", "3"], ["c", "2"]]) :=
  ⟨(C6_sort_in_place_amended screen0 [["a", "1"], ["b", "3"], ["c", "2"]]).1,
   ((C6_sort_in_place_amended screen0 [["a", "1"], ["b", "3"], ["c", "2"]]).2.2.2
      (by decide) (by decide)).1 rfl⟩


/- ------------------------------------------------------------------ -/
/- C2: sort-key wraparound                                             -/
/- ------------------------------------------------------------------ -/

theorem int_sub_emod_self (a L : Int) : (a - L) % L = a % L :=
  Int.emod_sub_cancel a L

theorem int_emod_add_one (a L : Int) : (a % L + 1) % L = (a + 1) % L :=
  Int.emod_add_emod a L 1

theorem int_emod_sub_one (a L : Int) : (a % L - 1) % L = (a - 1) % L := by
  have hb : a % L + L * (a / L) = a := Int.emod_add_ediv a L
  have h : a % L - 1 = (a - 1) + L * (-(a / L)) := by
    have hneg : L * (-(a / L)) = -(L * (a / L)) := by ring
    omega
  rw [h, Int.add_mul_emod_self_left]

theorem int_emod_add_emod_right (a b L : Int) : (a + b % L) % L = (a + b) % L := by
  have hb : b % L + L * (b / L) = b := Int.emod_add_ediv b L
  have h : a + b % L = (a + b) + L * (-(b / L)) := by
    have hneg : L * (-(b / L)) = -(L * (b / L)) := by ring
    omega
  rw [h, Int.add_mul_emod_self_left]

theorem int_emod_sub_emod_right (a b L : Int) : (a - b % L) % L = (a - b) % L := by
  have hb : b % L + L * (b / L) = b := Int.emod_add_ediv b L
  have h : a - b % L = (a - b) + L * (b / L) := by omega
  rw [h, Int.add_mul_emod_self_left]

theorem int_add_self_emod (a L : Int) : (a + L) % L = a % L := by
  rw [show a + L = a - (-L) by ring]
  rw [show a % L = (a - 0) % L by ring_nf]
  rw [Int.sub_emod, Int.sub_emod a 0]
  rw [show (-L) % L = 0 % L from by
    rw [show (-L : Int) = 0 - L by ring, int_sub_emod_self]]

theorem order_key_step_right_eq (m M k : Int) (hmM : m ≤ M) (hk1 : m ≤ k) (hk2 : k ≤ M) :
    order_key_step m M true k = m + ((k - m + 1) % (M - m + 1)) := by
  unfold order_key_step
  rw [if_pos rfl]
  by_cases h : k + 1 > M
  · rw [if_pos h]
    have hkM : k = M := by omega
    rw [hkM, Int.emod_self]
    omega
  · rw [if_neg h, Int.emod_eq_of_lt (by omega) (by omega)]
    omega

theorem order_key_step_left_eq (m M k : Int) (hmM : m ≤ M) (hk1 : m ≤ k) (hk2 : k ≤ M) :
    order_key_step m M false k = m + ((k - m - 1) % (M - m + 1)) := by
  unfold order_key_step
  rw [if_neg (by decide)]
  by_cases h : k - 1 < m
  · rw [if_pos h]
    have hkm : k = m := by omega
    rw [hkm]
    rw [show (m - m - 1 : Int) = (M - m + 1 - 1) - (M - m + 1) by ring]
    rw [int_sub_emod_self]
    rw [Int.emod_eq_of_lt (by omega) (by omega)]
    omega
  · rw [if_neg h, Int.emod_eq_of_lt (by omega) (by omega)]
    omega

theorem iterate_order_key_right (m M k : Int) (hmM : m ≤ M) (hk1 : m ≤ k) (hk2 : k ≤ M) :
    ∀ n : Nat, (order_key_step m M true)^[n] k = m + ((k - m + (n : Int)) % (M - m + 1)) := by
  intro n
  induction n with
  | zero =>
    simp only [Function.iterate_zero, id_eq, Nat.cast_zero, add_zero]
    rw [Int.emod_eq_of_lt (by omega) (by omega)]
    omega
  | succ n ih =>
    rw [Function.iterate_succ_apply', ih]
    have hr0 : 0 ≤ (k - m + (n : Int)) % (M - m + 1) := Int.emod_nonneg _ (by omega)
    have hrL : (k - m + (n : Int)) % (M - m + 1) < M - m + 1 :=
      Int.emod_lt_of_pos _ (by omega)
    rw [order_key_step_right_eq m M _ hmM (by omega) (by omega)]
    rw [show m + (k - m + (n : Int)) % (M - m + 1) - m + 1
        = (k - m + (n : Int)) % (M - m + 1) + 1 by ring]
    rw [int_emod_add_one]
    rw [show k - m + ((n + 1 : Nat) : Int) = k - m + (n : Int) + 1 by push_cast; ring]

theorem iterate_order_key_left (m M k : Int) (hmM : m ≤ M) (hk1 : m ≤ k) (hk2 : k ≤ M) :
    ∀ n : Nat, (order_key_step m M false)^[n] k = m + ((k - m - (n : Int)) % (M - m + 1)) := by
  intro n
  induction n with
  | zero =>
    simp only [Function.iterate_zero, id_eq, Nat.cast_zero, sub_zero]
    rw [Int.emod_eq_of_lt (by omega) (by omega)]
    omega
  | succ n ih =>
    rw [Function.iterate_succ_apply', ih]
    have hr0 : 0 ≤ (k - m - (n : Int)) % (M - m + 1) := Int.emod_nonneg _ (by omega)
    have hrL : (k - m - (n : Int)) % (M - m + 1) < M - m + 1 :=
      Int.emod_lt_of_pos _ (by omega)
    rw [order_key_step_left_eq m M _ hmM (by omega) (by omega)]
    rw [show m + (k - m - (n : Int)) % (M - m + 1) - m - 1
        = (k - m - (n : Int)) % (M - m + 1) - 1 by ring]
    rw [int_emod_sub_one]
    rw [show k - m - ((n + 1 : Nat) : Int) = k - m - (n : Int) - 1 by push_cast; ring]

/-- One arrow keystroke as dispatched by the main loop
(src/pgcenter.c:1399-1404): `change_sort_order` on the active screen
carrying the `first_iter` flag. -/
def press_arrow (K : HeaderConsts) (increment : Bool) (p : screen_s × Bool) :
    screen_s × Bool :=
  change_sort_order K p.1 increment p.2

theorem change_sort_order_current_context (K : HeaderConsts) (s : screen_s)
    (inc fi : Bool) : (change_sort_order K s inc fi).1.current_context
      = s.current_context := rfl

theorem change_sort_order_key (K : HeaderConsts) (s : screen_s) (inc fi : Bool) :
    ((change_sort_order K s inc fi).1.context_list s.current_context).order_key
      = order_key_step (sort_range_min K s.current_context)
          (sort_range_max K s.current_context) inc
          ((s.context_list s.current_context).order_key) := by
  simp [change_sort_order]

theorem press_arrow_iterate (K : HeaderConsts) (inc : Bool) (s : screen_s) (fi : Bool) :
    ∀ n : Nat,
      ((press_arrow K inc)^[n] (s, fi)).1.current_context = s.current_context ∧
      (((press_arrow K inc)^[n] (s, fi)).1.context_list s.current_context).order_key
        = (order_key_step (sort_range_min K s.current_context)
            (sort_range_max K s.current_context) inc)^[n]
            ((s.context_list s.current_context).order_key) := by
  intro n
  induction n with
  | zero => exact ⟨rfl, rfl⟩
  | succ n ih =>
    obtain ⟨hc, hk⟩ := ih
    rw [Function.iterate_succ_apply', Function.iterate_succ_apply']
    constructor
    · rw [show (press_arrow K inc ((press_arrow K inc)^[n] (s, fi))).1
          = (change_sort_order K ((press_arrow K inc)^[n] (s, fi)).1 inc
              ((press_arrow K inc)^[n] (s, fi)).2).1 from rfl]
      rw [change_sort_order_current_context, hc]
    · rw [show (press_arrow K inc ((press_arrow K inc)^[n] (s, fi))).1
          = (change_sort_order K ((press_arrow K inc)^[n] (s, fi)).1 inc
              ((press_arrow K inc)^[n] (s, fi)).2).1 from rfl]
      have hstep := change_sort_order_key K ((press_arrow K inc)^[n] (s, fi)).1 inc
        ((press_arrow K inc)^[n] (s, fi)).2
      rw [hc] at hstep
      rw [hstep, hk]

/-- C2: on every view whose wrap interval (as computed by the switch in
`change_sort_order`) is non-degenerate and contains the initial order
key of `init_screens`, repeated right-arrow presses keep the key inside
the interval, return to the initial key after exactly
`sort_max − sort_min + 1` presses and not earlier, and visit every
column of the interval; the same holds for the left arrow. -/
theorem C2_sort_wraparound :
    ∀ (K : HeaderConsts) (v : context) (s : screen_s) (fi : Bool),
      s.current_context = v →
      (s.context_list v).order_key = init_order_key K v →
      sort_range_min K v ≤ sort_range_max K v →
      sort_range_min K v ≤ init_order_key K v →
      init_order_key K v ≤ sort_range_max K v →
      (∀ n : Nat,
        sort_range_min K v
          ≤ (((press_arrow K true)^[n] (s, fi)).1.context_list v).order_key ∧
        (((press_arrow K true)^[n] (s, fi)).1.context_list v).order_key
          ≤ sort_range_max K v) ∧
      ((((press_arrow K true)^[(sort_range_max K v - sort_range_min K v + 1).toNat]
          (s, fi)).1.context_list v).order_key = init_order_key K v) ∧
      (∀ n : Nat, 1 ≤ n → (n : Int) < sort_range_max K v - sort_range_min K v + 1 →
        (((press_arrow K true)^[n] (s, fi)).1.context_list v).order_key
          ≠ init_order_key K v) ∧
      (∀ c : Int, sort_range_min K v ≤ c → c ≤ sort_range_max K v →
        ∃ n : Nat, (n : Int) < sort_range_max K v - sort_range_min K v + 1 ∧
          (((press_arrow K true)^[n] (s, fi)).1.context_list v).order_key = c) ∧
      (∀ n : Nat,
        sort_range_min K v
          ≤ (((press_arrow K false)^[n] (s, fi)).1.context_list v).order_key ∧
        (((press_arrow K false)^[n] (s, fi)).1.context_list v).order_key
          ≤ sort_range_max K v) ∧
      ((((press_arrow K false)^[(sort_range_max K v - sort_range_min K v + 1).toNat]
          (s, fi)).1.context_list v).order_key = init_order_key K v) ∧
      (∀ n : Nat, 1 ≤ n → (n : Int) < sort_range_max K v - sort_range_min K v + 1 →
        (((press_arrow K false)^[n] (s, fi)).1.context_list v).order_key
          ≠ init_order_key K v) ∧
      (∀ c : Int, sort_range_min K v ≤ c → c ≤ sort_range_max K v →
        ∃ n : Nat, (n : Int) < sort_range_max K v - sort_range_min K v + 1 ∧
          (((press_arrow K false)^[n] (s, fi)).1.context_list v).order_key = c) := by
  intro K v s fi hcv hk0 hmM hk1 hk2
  subst hcv
  set m := sort_range_min K s.current_context with hm
  set M := sort_range_max K s.current_context with hM
  set k0 := init_order_key K s.current_context with hk0def
  have hkey : ∀ (inc : Bool) (n : Nat),
      (((press_arrow K inc)^[n] (s, fi)).1.context_list s.current_context).order_key
        = (order_key_step m M inc)^[n] ((s.context_list s.current_context).order_key) :=
    fun inc n => (press_arrow_iterate K inc s fi n).2
  have hL : (((M - m + 1).toNat : Int)) = M - m + 1 := Int.toNat_of_nonneg (by omega)
  refine ⟨?_, ?_, ?_, ?_, ?_, ?_, ?_, ?_⟩
  · intro n
    rw [hkey true n, hk0, iterate_order_key_right m M k0 hmM hk1 hk2 n]
    have h1 : 0 ≤ (k0 - m + (n : Int)) % (M - m + 1) := Int.emod_nonneg _ (by omega)
    have h2 : (k0 - m + (n : Int)) % (M - m + 1) < M - m + 1 :=
      Int.emod_lt_of_pos _ (by omega)
    omega
  · rw [hkey true _, hk0, iterate_order_key_right m M k0 hmM hk1 hk2 _, hL]
    rw [show k0 - m + (M - m + 1) = (k0 - m) + (M - m + 1) by ring]
    rw [int_add_self_emod]
    rw [Int.emod_eq_of_lt (by omega) (by omega)]
    omega
  · intro n hn1 hnL heq
    rw [hkey true n, hk0, iterate_order_key_right m M k0 hmM hk1 hk2 n] at heq
    have he : (k0 - m + (n : Int)) % (M - m + 1) = k0 - m := by omega
    by_cases hcase : k0 - m + (n : Int) < M - m + 1
    · rw [Int.emod_eq_of_lt (by omega) hcase] at he
      omega
    · have h3 : (k0 - m + (n : Int)) % (M - m + 1)
          = (k0 - m + (n : Int) - (M - m + 1)) % (M - m + 1) :=
        (int_sub_emod_self _ _).symm
      rw [h3, Int.emod_eq_of_lt (by omega) (by omega)] at he
      omega
  · intro c hc1 hc2
    refine ⟨((c - k0) % (M - m + 1)).toNat, ?_, ?_⟩
    · have h1 : 0 ≤ (c - k0) % (M - m + 1) := Int.emod_nonneg _ (by omega)
      have h2 : (c - k0) % (M - m + 1) < M - m + 1 := Int.emod_lt_of_pos _ (by omega)
      omega
    · rw [hkey true _, hk0, iterate_order_key_right m M k0 hmM hk1 hk2 _]
      rw [Int.toNat_of_nonneg (Int.emod_nonneg _ (by omega))]
      rw [int_emod_add_emod_right]
      rw [show k0 - m + (c - k0) = c - m by ring]
      rw [Int.emod_eq_of_lt (by omega) (by omega)]
      omega
  · intro n
    rw [hkey false n, hk0, iterate_order_key_left m M k0 hmM hk1 hk2 n]
    have h1 : 0 ≤ (k0 - m - (n : Int)) % (M - m + 1) := Int.emod_nonneg _ (by omega)
    have h2 : (k0 - m - (n : Int)) % (M - m + 1) < M - m + 1 :=
      Int.emod_lt_of_pos _ (by omega)
    omega
  · rw [hkey false _, hk0, iterate_order_key_left m M k0 hmM hk1 hk2 _, hL]
    rw [show k0 - m - (M - m + 1) = (k0 - m) - (M - m + 1) by ring]
    rw [int_sub_emod_self]
    rw [Int.emod_eq_of_lt (by omega) (by omega)]
    omega
  · intro n hn1 hnL heq
    rw [hkey false n, hk0, iterate_order_key_left m M k0 hmM hk1 hk2 n] at heq
    have he : (k0 - m - (n : Int)) % (M - m + 1) = k0 - m := by omega
    by_cases hcase : 0 ≤ k0 - m - (n : Int)
    · rw [Int.emod_eq_of_lt (by omega) (by omega)] at he
      omega
    · have h3 : (k0 - m - (n : Int)) % (M - m + 1)
          = (k0 - m - (n : Int) + (M - m + 1)) % (M - m + 1) :=
        (int_add_self_emod _ _).symm
      rw [h3, Int.emod_eq_of_lt (by omega) (by omega)] at he
      omega
  · intro c hc1 hc2
    refine ⟨((k0 - c) % (M - m + 1)).toNat, ?_, ?_⟩
    · have h1 : 0 ≤ (k0 - c) % (M - m + 1) := Int.emod_nonneg _ (by omega)
      have h2 : (k0 - c) % (M - m + 1) < M - m + 1 := Int.emod_lt_of_pos _ (by omega)
      omega
    · rw [hkey false _, hk0, iterate_order_key_left m M k0 hmM hk1 hk2 _]
      rw [Int.toNat_of_nonneg (Int.emod_nonneg _ (by omega))]
      rw [int_emod_sub_emod_right]
      rw [show k0 - m - (k0 - c) = c - m by ring]
      rw [Int.emod_eq_of_lt (by omega) (by omega)]
      omega

/-- Witness for C2 on the databases view at the concrete constant
record: fifteen right presses (the interval width) return the key to
the initial column, and so do fifteen left presses. -/
theorem C2_sort_wraparound_witness :
    (((press_arrow Kc true)^[15] (screen0, false)).1.context_list
        context.pg_stat_database).order_key = init_order_key Kc .pg_stat_database ∧
    (((press_arrow Kc false)^[15] (screen0, false)).1.context_list
        context.pg_stat_database).order_key = init_order_key Kc .pg_stat_database :=
  ⟨(C2_sort_wraparound Kc .pg_stat_database screen0 false rfl rfl
      (by decide) (by decide) (by decide)).2.1,
   (C2_sort_wraparound Kc .pg_stat_database screen0 false rfl rfl
      (by decide) (by decide) (by decide)).2.2.2.2.2.1⟩
